import Mathlib

/-!
Verification development for the makani spectral-operator and time-stepping core.

The development shallowly embeds three source files:
* `makani/models/stepper.py` — `SingleStepWrapper` and `MultiStepWrapper`,
* `makani/models/common/spectral_convolution.py` — `SpectralConv` and `SpectralAttention`
  construction-time behaviour, weight-initialization scaling, and the residual logic of
  their forward passes,
* `makani/utils/visualize.py` — the job submission and result-aggregation logic of
  `VisualizationWrapper`.

The `Preprocessor2D` collaborator, the wrapped model, the spherical-harmonic transforms
and the contraction kernels live outside these files; they are modelled as abstract
state-transforming functions, exactly as the wrappers consume them.  The wrappers are
instrumented with an explicit trace of the collaborator calls they issue, so that
claims about call counts and call order can be stated.
-/

/-- A field tensor `[batch, channel, ...]`, modelled as a batch list of channel lists.
Each element of type `α` stands for one 2-dimensional `(lat, lon)` slice.  This retains
exactly the structure needed to express concatenation along the channel axis (dim 1). -/
def Tensor (α : Type) : Type := List (List α)

/-- Concatenation of tensors along dimension 1 (the channel axis), the embedding of
`torch.cat(result, dim=1)` as used at the end of `MultiStepWrapper._forward_train`. -/
def catDim1 {α : Type} : List (Tensor α) → Tensor α
  | [] => []
  | [t] => t
  | t :: u :: ts => List.zipWith (fun a b => a ++ b) t (catDim1 (u :: ts))

/-- One collaborator call issued by a step wrapper.  Each constructor corresponds to one
call site in `stepper.py`: a `Preprocessor2D` method, the wrapped model, or the
gradient-detach performed on the fed-back tensor in push-forward mode. -/
inductive Event where
  | updateState (replace : Bool)
  | detach
  | appendUnpredicted
  | computeStats
  | normalize (target : Bool)
  | addStatic
  | runModel
  | correctBias
  | denormalize (target : Bool)
  | addResidual
  | appendHistory (step : Nat)
deriving DecidableEq

/-- Recognizes `update_internal_state` calls in a trace. -/
def Event.isStateUpdate : Event → Bool
  | Event.updateState _ => true
  | _ => false

/-- The `Preprocessor2D` contract consumed by the step wrappers (an external collaborator
of `stepper.py`).  Every method may read and advance an abstract internal state of type
`S`; methods returning a tensor also produce the transformed tensor. -/
structure Preprocessor (S : Type) (α : Type) where
  update_internal_state : Bool → S → S
  append_unpredicted_features : S → Tensor α → S × Tensor α
  history_compute_stats : S → Tensor α → S
  history_normalize : S → Tensor α → Bool → S × Tensor α
  add_static_features : S → Tensor α → S × Tensor α
  correct_bias : S → Tensor α → S × Tensor α
  history_denormalize : S → Tensor α → Bool → S × Tensor α
  add_residual : S → Tensor α → Tensor α → S × Tensor α
  append_history : S → Tensor α → Tensor α → Nat → S × Tensor α

/-- Result of one wrapper invocation: the final preprocessor state, the returned tensor,
and the trace of collaborator calls issued, in order. -/
structure StepOut (S : Type) (α : Type) where
  state : S
  out : Tensor α
  trace : List Event

/-- Embedding of `SingleStepWrapper.forward(inp, replace_state)`. -/
def SingleStepWrapper.forward {S α : Type} (pp : Preprocessor S α)
    (model : Tensor α → Tensor α) (s : S) (inp : Tensor α) (replace_state : Bool) :
    StepOut S α :=
  let s1 := pp.update_internal_state replace_state s
  let p1 := pp.append_unpredicted_features s1 inp
  let s3 := pp.history_compute_stats p1.1 p1.2
  let p2 := pp.history_normalize s3 p1.2 false
  let p3 := pp.add_static_features p2.1 p2.2
  let yn := model p3.2
  let p4 := pp.correct_bias p3.1 yn
  let p5 := pp.history_denormalize p4.1 p4.2 true
  let p6 := pp.add_residual p5.1 inp p5.2
  ⟨p6.1, p6.2,
    [Event.updateState replace_state, Event.appendUnpredicted, Event.computeStats,
     Event.normalize false, Event.addStatic, Event.runModel, Event.correctBias,
     Event.denormalize true, Event.addResidual]⟩

/-- Constructor parameters of `MultiStepWrapper` that drive `forward`:
`residual_mode` (from `params.target == "target"`, stored but unused in this file),
`push_forward_mode` (from `params.get("multistep_push_forward", False)`), and
`n_future` (from `params.n_future`). -/
structure MSParams where
  residual_mode : Bool
  push_forward_mode : Bool
  n_future : Nat

/-- The collaborator calls issued by one iteration body of
`MultiStepWrapper._forward_train`, before any state advance: the optional detach (in
push-forward mode) followed by the fixed append/normalize/model/bias/denormalize/residual
pipeline. -/
def MultiStepWrapper.bodyEvents (pf : Bool) : List Event :=
  (if pf then [Event.detach] else []) ++
    [Event.appendUnpredicted, Event.computeStats, Event.normalize false, Event.addStatic,
     Event.runModel, Event.correctBias, Event.denormalize true, Event.addResidual]

/-- One iteration body of `MultiStepWrapper._forward_train` (lines 78-107): detach in
push-forward mode (`Tensor.detach` returns the same values and only cuts the autodiff
graph, so it is the value identity here), then append unpredicted features, compute
stats, normalize, add static features, model, bias correction, denormalize, add
residual.  Returns the updated state, the step prediction, and the call trace. -/
def MultiStepWrapper.trainBody {S α : Type} (pp : Preprocessor S α)
    (model : Tensor α → Tensor α) (pf : Bool) (s : S) (inpt : Tensor α) :
    S × Tensor α × List Event :=
  let p1 := pp.append_unpredicted_features s inpt
  let s3 := pp.history_compute_stats p1.1 p1.2
  let p2 := pp.history_normalize s3 p1.2 false
  let p3 := pp.add_static_features p2.1 p2.2
  let predn := model p3.2
  let p4 := pp.correct_bias p3.1 predn
  let p5 := pp.history_denormalize p4.1 p4.2 true
  let p6 := pp.add_residual p5.1 inpt p5.2
  (p6.1, p6.2, MultiStepWrapper.bodyEvents pf)

/-- The state advance between two rollout steps (lines 112-116 of `stepper.py`): update
the internal state with `replace_state=False`, then append the just-produced prediction
(the body's output at the same state and input) into history to form the next input. -/
def MultiStepWrapper.advance {S α : Type} (pp : Preprocessor S α)
    (model : Tensor α → Tensor α) (pf : Bool) (step : Nat) (s : S) (inpt : Tensor α) :
    S × Tensor α :=
  let r := MultiStepWrapper.trainBody pp model pf s inpt
  let s2 := pp.update_internal_state false r.1
  pp.append_history s2 inpt r.2.1 step

/-- The rollout loop of `MultiStepWrapper._forward_train` from step index `step` with
`k` further steps remaining after the current one.  The current iteration runs the body;
if it is the final step (`k = 0`, i.e. `step == n_future`) the loop breaks, otherwise
the internal state is advanced (`replace_state=False`), the prediction is appended to
history to form the next input, and the loop continues. -/
def MultiStepWrapper.trainLoop {S α : Type} (pp : Preprocessor S α)
    (model : Tensor α → Tensor α) (pf : Bool) :
    Nat → Nat → S → Tensor α → S × List (Tensor α) × List Event
  | _step, 0, s, inpt =>
      let r := MultiStepWrapper.trainBody pp model pf s inpt
      (r.1, [r.2.1], r.2.2)
  | step, Nat.succ k, s, inpt =>
      let r := MultiStepWrapper.trainBody pp model pf s inpt
      let ai := MultiStepWrapper.advance pp model pf step s inpt
      let rest := MultiStepWrapper.trainLoop pp model pf (step + 1) k ai.1 ai.2
      (rest.1, r.2.1 :: rest.2.1,
        r.2.2 ++ (Event.updateState false :: Event.appendHistory step :: rest.2.2))

/-- Embedding of `MultiStepWrapper._forward_train`: reset the internal state
(`replace_state=True`), run the rollout loop over steps `0..n_future`, and concatenate
the per-step predictions along the channel axis. -/
def MultiStepWrapper.forwardTrain {S α : Type} (pp : Preprocessor S α)
    (model : Tensor α → Tensor α) (pf : Bool) (nf : Nat) (s : S) (inp : Tensor α) :
    StepOut S α :=
  let s1 := pp.update_internal_state true s
  let r := MultiStepWrapper.trainLoop pp model pf 0 nf s1 inp
  ⟨r.1, catDim1 r.2.1, Event.updateState true :: r.2.2⟩

/-- Embedding of `MultiStepWrapper._forward_eval`: a single pass of the reset,
append-unpredicted, compute-stats, normalize, add-static, model, bias-correct,
denormalize, add-residual pipeline, with no loop and no detach. -/
def MultiStepWrapper.forwardEval {S α : Type} (pp : Preprocessor S α)
    (model : Tensor α → Tensor α) (s : S) (inp : Tensor α) : StepOut S α :=
  let s1 := pp.update_internal_state true s
  let p1 := pp.append_unpredicted_features s1 inp
  let s3 := pp.history_compute_stats p1.1 p1.2
  let p2 := pp.history_normalize s3 p1.2 false
  let p3 := pp.add_static_features p2.1 p2.2
  let yn := model p3.2
  let p4 := pp.correct_bias p3.1 yn
  let p5 := pp.history_denormalize p4.1 p4.2 true
  let p6 := pp.add_residual p5.1 inp p5.2
  ⟨p6.1, p6.2,
    [Event.updateState true, Event.appendUnpredicted, Event.computeStats,
     Event.normalize false, Event.addStatic, Event.runModel, Event.correctBias,
     Event.denormalize true, Event.addResidual]⟩

/-- Embedding of `MultiStepWrapper.forward`: dispatch on the module's training flag. -/
def MultiStepWrapper.forward {S α : Type} (cfg : MSParams) (pp : Preprocessor S α)
    (model : Tensor α → Tensor α) (training : Bool) (s : S) (inp : Tensor α) :
    StepOut S α :=
  if training then MultiStepWrapper.forwardTrain pp model cfg.push_forward_mode cfg.n_future s inp
  else MultiStepWrapper.forwardEval pp model s inp

/-- C1: For every model, Preprocessor state, and input tensor, the Multi-Step Wrapper in
training mode with `n_future = 0` produces output identical to the Single-Step Wrapper's
forward on the same model, Preprocessor state, and input (the training rollout with zero
future steps performs the same reset, append-unpredicted-features, compute-stats,
normalize, add-static-features, model, correct-bias, denormalize, add-residual sequence
and concatenates a single prediction).  The final preprocessor states also coincide. -/
theorem multistep_zero_future_matches_single {S α : Type} (rm pf : Bool)
    (pp : Preprocessor S α) (model : Tensor α → Tensor α) (s : S) (inp : Tensor α) :
    (MultiStepWrapper.forward ⟨rm, pf, 0⟩ pp model true s inp).out
      = (SingleStepWrapper.forward pp model s inp true).out
    ∧ (MultiStepWrapper.forward ⟨rm, pf, 0⟩ pp model true s inp).state
      = (SingleStepWrapper.forward pp model s inp true).state :=
  ⟨rfl, rfl⟩

/-- C6: In evaluation mode (training flag false), the Multi-Step Wrapper never calls the
gradient-detach path regardless of the push-forward configuration, and for every input
performs the reset, normalize, model, bias-correct, denormalize, residual pipeline
exactly once with no autoregressive loop, regardless of `n_future`. -/
theorem multistep_eval_single_pass {S α : Type} (cfg : MSParams)
    (pp : Preprocessor S α) (model : Tensor α → Tensor α) (s : S) (inp : Tensor α) :
    Event.detach ∉ (MultiStepWrapper.forward cfg pp model false s inp).trace
    ∧ (MultiStepWrapper.forward cfg pp model false s inp).trace
        = [Event.updateState true, Event.appendUnpredicted, Event.computeStats,
           Event.normalize false, Event.addStatic, Event.runModel, Event.correctBias,
           Event.denormalize true, Event.addResidual] := by
  constructor
  · intro h
    have h2 : Event.detach ∈
        [Event.updateState true, Event.appendUnpredicted, Event.computeStats,
         Event.normalize false, Event.addStatic, Event.runModel, Event.correctBias,
         Event.denormalize true, Event.addResidual] := h
    exact absurd h2 (by decide)
  · rfl

/-- Configuration (internal state, input tensor) at the start of rollout step `step + n`,
obtained from the configuration at step `step` by `n` body-plus-advance iterations. -/
def MultiStepWrapper.configFrom {S α : Type} (pp : Preprocessor S α)
    (model : Tensor α → Tensor α) (pf : Bool) (step : Nat) (s : S) (inpt : Tensor α) :
    Nat → S × Tensor α
  | 0 => (s, inpt)
  | Nat.succ n =>
      let c := MultiStepWrapper.configFrom pp model pf step s inpt n
      MultiStepWrapper.advance pp model pf (step + n) c.1 c.2

/-- The prediction the rollout produces at step `step + n`, given the configuration at
step `step`: the body run on the configuration reached after `n` advances. -/
def MultiStepWrapper.predFrom {S α : Type} (pp : Preprocessor S α)
    (model : Tensor α → Tensor α) (pf : Bool) (step : Nat) (s : S) (inpt : Tensor α)
    (n : Nat) : Tensor α :=
  (MultiStepWrapper.trainBody pp model pf
    (MultiStepWrapper.configFrom pp model pf step s inpt n).1
    (MultiStepWrapper.configFrom pp model pf step s inpt n).2).2.1

theorem trainLoop_zero_eq {S α : Type} (pp : Preprocessor S α)
    (model : Tensor α → Tensor α) (pf : Bool) (step : Nat) (s : S) (inpt : Tensor α) :
    MultiStepWrapper.trainLoop pp model pf step 0 s inpt
      = ((MultiStepWrapper.trainBody pp model pf s inpt).1,
         [(MultiStepWrapper.trainBody pp model pf s inpt).2.1],
         (MultiStepWrapper.trainBody pp model pf s inpt).2.2) := rfl

theorem trainLoop_succ_eq {S α : Type} (pp : Preprocessor S α)
    (model : Tensor α → Tensor α) (pf : Bool) (step k : Nat) (s : S) (inpt : Tensor α) :
    MultiStepWrapper.trainLoop pp model pf step (k + 1) s inpt
      = ((MultiStepWrapper.trainLoop pp model pf (step + 1) k
            (MultiStepWrapper.advance pp model pf step s inpt).1
            (MultiStepWrapper.advance pp model pf step s inpt).2).1,
         (MultiStepWrapper.trainBody pp model pf s inpt).2.1 ::
           (MultiStepWrapper.trainLoop pp model pf (step + 1) k
             (MultiStepWrapper.advance pp model pf step s inpt).1
             (MultiStepWrapper.advance pp model pf step s inpt).2).2.1,
         (MultiStepWrapper.trainBody pp model pf s inpt).2.2 ++
           (Event.updateState false :: Event.appendHistory step ::
             (MultiStepWrapper.trainLoop pp model pf (step + 1) k
               (MultiStepWrapper.advance pp model pf step s inpt).1
               (MultiStepWrapper.advance pp model pf step s inpt).2).2.2)) := rfl

theorem trainBody_trace_eq {S α : Type} (pp : Preprocessor S α)
    (model : Tensor α → Tensor α) (pf : Bool) (s : S) (inpt : Tensor α) :
    (MultiStepWrapper.trainBody pp model pf s inpt).2.2
      = MultiStepWrapper.bodyEvents pf := rfl

theorem bodyEvents_filter_isStateUpdate (pf : Bool) :
    (MultiStepWrapper.bodyEvents pf).filter Event.isStateUpdate = [] := by
  cases pf <;> rfl

theorem bodyEvents_getLast (pf : Bool) :
    (MultiStepWrapper.bodyEvents pf).getLast? = some Event.addResidual := by
  cases pf <;> rfl

theorem getLast?_append_some {γ : Type} (l1 : List γ) {l2 : List γ} {x : γ}
    (h : l2.getLast? = some x) : (l1 ++ l2).getLast? = some x := by
  rw [List.getLast?_append, h]
  rfl

theorem trainLoop_trace_filter {S α : Type} (pp : Preprocessor S α)
    (model : Tensor α → Tensor α) (pf : Bool) :
    ∀ (k step : Nat) (s : S) (inpt : Tensor α),
      ((MultiStepWrapper.trainLoop pp model pf step k s inpt).2.2).filter Event.isStateUpdate
        = List.replicate k (Event.updateState false) := by
  intro k
  induction k with
  | zero =>
      intro step s inpt
      rw [trainLoop_zero_eq, trainBody_trace_eq]
      exact bodyEvents_filter_isStateUpdate pf
  | succ k ih =>
      intro step s inpt
      rw [trainLoop_succ_eq, trainBody_trace_eq, List.filter_append,
        bodyEvents_filter_isStateUpdate, List.filter_cons, List.filter_cons]
      simp only [Event.isStateUpdate, ih, List.nil_append, List.replicate_succ]
      rfl

theorem trainLoop_trace_getLast {S α : Type} (pp : Preprocessor S α)
    (model : Tensor α → Tensor α) (pf : Bool) :
    ∀ (k step : Nat) (s : S) (inpt : Tensor α),
      ((MultiStepWrapper.trainLoop pp model pf step k s inpt).2.2).getLast?
        = some Event.addResidual := by
  intro k
  induction k with
  | zero =>
      intro step s inpt
      rw [trainLoop_zero_eq, trainBody_trace_eq]
      exact bodyEvents_getLast pf
  | succ k ih =>
      intro step s inpt
      rw [trainLoop_succ_eq, trainBody_trace_eq]
      exact getLast?_append_some _
        (getLast?_append_some [Event.updateState false, Event.appendHistory step] (ih _ _ _))

/-- C2: For every `n_future ≥ 0`, one call to the Multi-Step Wrapper's training rollout
invokes the Preprocessor's `update_internal_state` exactly once with
`replace_state=True` (at the start, as the very first collaborator call) and exactly
`n_future` times with `replace_state=False` thereafter; after producing the prediction
for step index `n_future` the loop ends without a further state advance (the trace ends
with the final step's `add_residual` call). -/
theorem multistep_train_state_advances {S α : Type} (pp : Preprocessor S α)
    (model : Tensor α → Tensor α) (pf : Bool) (nf : Nat) (s : S) (inp : Tensor α) :
    ((MultiStepWrapper.forwardTrain pp model pf nf s inp).trace).head?
        = some (Event.updateState true)
    ∧ ((MultiStepWrapper.forwardTrain pp model pf nf s inp).trace).filter Event.isStateUpdate
        = Event.updateState true :: List.replicate nf (Event.updateState false)
    ∧ ((MultiStepWrapper.forwardTrain pp model pf nf s inp).trace).getLast?
        = some Event.addResidual := by
  refine ⟨rfl, ?_, ?_⟩
  · show (Event.updateState true ::
        (MultiStepWrapper.trainLoop pp model pf 0 nf
          (pp.update_internal_state true s) inp).2.2).filter Event.isStateUpdate = _
    rw [List.filter_cons]
    simp only [Event.isStateUpdate]
    rw [trainLoop_trace_filter]
    rfl
  · show (Event.updateState true ::
        (MultiStepWrapper.trainLoop pp model pf 0 nf
          (pp.update_internal_state true s) inp).2.2).getLast? = _
    exact getLast?_append_some [Event.updateState true] (trainLoop_trace_getLast pp model pf nf 0 _ _)

theorem configFrom_shift {S α : Type} (pp : Preprocessor S α)
    (model : Tensor α → Tensor α) (pf : Bool) :
    ∀ (n step : Nat) (s : S) (inpt : Tensor α),
      MultiStepWrapper.configFrom pp model pf step s inpt (n + 1)
        = MultiStepWrapper.configFrom pp model pf (step + 1)
            (MultiStepWrapper.advance pp model pf step s inpt).1
            (MultiStepWrapper.advance pp model pf step s inpt).2 n := by
  intro n
  induction n with
  | zero =>
      intro step s inpt
      simp [MultiStepWrapper.configFrom]
  | succ n ih =>
      intro step s inpt
      show MultiStepWrapper.advance pp model pf (step + (n + 1))
          (MultiStepWrapper.configFrom pp model pf step s inpt (n + 1)).1
          (MultiStepWrapper.configFrom pp model pf step s inpt (n + 1)).2
        = MultiStepWrapper.advance pp model pf (step + 1 + n)
          (MultiStepWrapper.configFrom pp model pf (step + 1) _ _ n).1
          (MultiStepWrapper.configFrom pp model pf (step + 1) _ _ n).2
      rw [ih]
      have harith : step + (n + 1) = step + 1 + n := by omega
      rw [harith]

theorem trainLoop_preds {S α : Type} (pp : Preprocessor S α)
    (model : Tensor α → Tensor α) (pf : Bool) :
    ∀ (k step : Nat) (s : S) (inpt : Tensor α),
      (MultiStepWrapper.trainLoop pp model pf step k s inpt).2.1
        = List.ofFn (fun i : Fin (k + 1) =>
            MultiStepWrapper.predFrom pp model pf step s inpt i.val) := by
  intro k
  induction k with
  | zero =>
      intro step s inpt
      rw [trainLoop_zero_eq]
      rw [List.ofFn_succ]
      rfl
  | succ k ih =>
      intro step s inpt
      rw [trainLoop_succ_eq, List.ofFn_succ, ih]
      have hhead : MultiStepWrapper.predFrom pp model pf step s inpt (0 : Fin (k + 2)).val
          = (MultiStepWrapper.trainBody pp model pf s inpt).2.1 := rfl
      rw [hhead]
      have htail : (fun i : Fin (k + 1) =>
            MultiStepWrapper.predFrom pp model pf (step + 1)
              (MultiStepWrapper.advance pp model pf step s inpt).1
              (MultiStepWrapper.advance pp model pf step s inpt).2 i.val)
          = fun i : Fin (k + 1) =>
              MultiStepWrapper.predFrom pp model pf step s inpt (i.succ : Fin (k + 2)).val := by
        funext i
        show MultiStepWrapper.predFrom pp model pf (step + 1) _ _ i.val
          = MultiStepWrapper.predFrom pp model pf step s inpt (i.val + 1)
        unfold MultiStepWrapper.predFrom
        rw [configFrom_shift]
      rw [htail]

/-- C7: For every `n_future ≥ 0`, the Multi-Step Wrapper's training rollout returns all
`n_future + 1` per-step predictions, in step order (step `0` first, step `n_future`
last), concatenated along the channel axis (dimension 1). -/
theorem multistep_train_output_concat {S α : Type} (pp : Preprocessor S α)
    (model : Tensor α → Tensor α) (pf : Bool) (nf : Nat) (s : S) (inp : Tensor α) :
    (MultiStepWrapper.forwardTrain pp model pf nf s inp).out
      = catDim1 (List.ofFn (fun i : Fin (nf + 1) =>
          MultiStepWrapper.predFrom pp model pf 0 (pp.update_internal_state true s) inp i.val))
    ∧ (List.ofFn (fun i : Fin (nf + 1) =>
        MultiStepWrapper.predFrom pp model pf 0 (pp.update_internal_state true s) inp i.val)).length
      = nf + 1 := by
  constructor
  · show catDim1 (MultiStepWrapper.trainLoop pp model pf 0 nf
        (pp.update_internal_state true s) inp).2.1 = _
    rw [trainLoop_preds]
  · exact List.length_ofFn _

/-- Attributes of a (possibly distributed) spherical-harmonic or FFT transform as read
by the operator constructors: mode counts `lmax`/`mmax`, grid sizes `nlat`/`nlon`, an
optional `grid` identifier (`RealFFT2` wrappers have no `grid` attribute, hence the
`hasattr` guard in `SpectralConv.__init__`), and, when the transform is a
`DistributedInverseRealSHT`, the local shard shapes
`(l_shapes[rank], m_shapes[rank], lat_shapes[rank], lon_shapes[rank])` for this rank. -/
structure TransformSpec where
  lmax : Nat
  mmax : Nat
  nlat : Nat
  nlon : Nat
  grid : Option String
  localShapes : Option (Nat × Nat × Nat × Nat)
deriving DecidableEq

/-- Local latitudinal mode count of the inverse transform (lines 73-82 of
`spectral_convolution.py`): the per-rank shard shape when distributed, else `lmax`. -/
def TransformSpec.modesLatLocal (t : TransformSpec) : Nat :=
  match t.localShapes with
  | some q => q.1
  | none => t.lmax

/-- Local longitudinal mode count of the inverse transform (per-rank shard shape when
distributed, else `mmax`). -/
def TransformSpec.modesLonLocal (t : TransformSpec) : Nat :=
  match t.localShapes with
  | some q => q.2.1
  | none => t.mmax

/-- Local latitude grid extent of the inverse transform. -/
def TransformSpec.nlatLocal (t : TransformSpec) : Nat :=
  match t.localShapes with
  | some q => q.2.2.1
  | none => t.nlat

/-- Local longitude grid extent of the inverse transform. -/
def TransformSpec.nlonLocal (t : TransformSpec) : Nat :=
  match t.localShapes with
  | some q => q.2.2.2
  | none => t.nlon

/-- The `scale_residual` flag computed in `SpectralConv.__init__` (lines 57-59): grids
or resolutions of the forward and inverse transforms differ; the grid identifier is
compared only when the forward transform has a `grid` attribute. -/
def SpectralConv.scaleResidualFlag (fT iT : TransformSpec) : Bool :=
  (decide (fT.nlat ≠ iT.nlat) || decide (fT.nlon ≠ iT.nlon)) ||
    (match fT.grid with
     | some g => decide (some g ≠ iT.grid)
     | none => false)

/-- The `scale_residual` flag computed in `SpectralAttention.__init__` (lines 177-181);
here the grid identifiers are compared unconditionally. -/
def SpectralAttention.scaleResidualFlag (fT iT : TransformSpec) : Bool :=
  decide (fT.nlat ≠ iT.nlat) || decide (fT.nlon ≠ iT.nlon) || decide (fT.grid ≠ iT.grid)

/-- Compatibility of broadcasting the 1-dimensional scale vector of length `scaleLen`
against a weight tensor whose trailing dimension is `lastDim` (torch semantics: trailing
dimensions align, and two sizes are compatible when they are equal or either is 1). -/
def broadcastOk (scaleLen lastDim : Nat) : Bool :=
  decide (scaleLen = lastDim) || decide (scaleLen = 1) || decide (lastDim = 1)

/-- Tests whether a construction attempt failed. -/
def isErr {α : Type} : Except String α → Bool
  | Except.error _ => true
  | Except.ok _ => false

/-- Data recorded by a successful `SpectralConv.__init__`: channel and group counts,
global and local mode counts, the residual flag, operator type, and the (unbroadcast)
weight shape. -/
structure SpectralConvState where
  in_channels : Nat
  out_channels : Nat
  num_groups : Nat
  modes_lat : Nat
  modes_lon : Nat
  modes_lat_local : Nat
  modes_lon_local : Nat
  nlat_local : Nat
  nlon_local : Nat
  scale_residual : Bool
  operator_type : String
  separable : Bool
  weight_shape : List Nat
  has_bias : Bool
deriving DecidableEq

/-- Builds the state a successful `SpectralConv.__init__` leaves behind. -/
def SpectralConv.mkState (fT iT : TransformSpec) (cin cout g : Nat) (op : String)
    (sep bias : Bool) (ws : List Nat) : SpectralConvState :=
  ⟨cin, cout, g, iT.lmax, iT.mmax, iT.modesLatLocal, iT.modesLonLocal,
   iT.nlatLocal, iT.nlonLocal, SpectralConv.scaleResidualFlag fT iT, op, sep, ws, bias⟩

/-- Embedding of `SpectralConv.__init__`.  Failures, in source order: Python raises
`ZeroDivisionError` on `% 0`; the two channel-divisibility asserts; the two mode-count
asserts (note that `modes_lat`/`modes_lon` are themselves read from the *inverse*
transform at lines 54-55, so the asserts at lines 65-66 compare the inverse transform
with itself); the unsupported-operator branch; `ZeroDivisionError` in
`math.sqrt(gain / (in_channels // num_groups))` when the integer quotient is zero;
`IndexError` from `scale[0]` when the local latitudinal mode count is zero; and the
broadcast of the length-`modes_lat_local` scale vector against the weight tensor in
`init = scale * torch.randn(*weight_shape)`. -/
def SpectralConv.init (fT iT : TransformSpec) (cin cout g : Nat) (op : String)
    (sep bias : Bool) : Except String SpectralConvState :=
  if g = 0 then Except.error ("ZeroDivisionError: integer modulo by zero")
  else if cin % g ≠ 0 then Except.error ("AssertionError: in_channels mod num_groups")
  else if cout % g ≠ 0 then Except.error ("AssertionError: out_channels mod num_groups")
  else if iT.lmax ≠ iT.lmax then Except.error ("AssertionError: inverse lmax")
  else if iT.mmax ≠ iT.mmax then Except.error ("AssertionError: inverse mmax")
  else if op = "diagonal" then
    if cin / g = 0 then Except.error ("ZeroDivisionError: float division by zero")
    else if iT.modesLatLocal = 0 then Except.error ("IndexError: scale index 0")
    else if broadcastOk iT.modesLatLocal iT.modesLonLocal then
      Except.ok (SpectralConv.mkState fT iT cin cout g op sep bias
        ([g, cin / g] ++ (if sep then [] else [cout / g])
          ++ [iT.modesLatLocal, iT.modesLonLocal]))
    else Except.error ("RuntimeError: scale not broadcastable to weight shape")
  else if op = "dhconv" then
    if cin / g = 0 then Except.error ("ZeroDivisionError: float division by zero")
    else if iT.modesLatLocal = 0 then Except.error ("IndexError: scale index 0")
    else
      Except.ok (SpectralConv.mkState fT iT cin cout g op sep bias
        ([g, cin / g] ++ (if sep then [] else [cout / g]) ++ [iT.modesLatLocal]))
  else Except.error ("ValueError: Unsupported operator type f" ++ op)

/-- Attributes `SpectralAttention.__init__` assigns (lines 165-186) before reaching the
contraction-handle lookup; retained as the nominal result type of construction, which
in fact always fails (see the constructor embedding below). -/
structure SpectralAttentionState where
  in_channels : Nat
  out_channels : Nat
  operator_type : String
  spectral_layers : Nat
  modes_lat : Nat
  modes_lon : Nat
  scale_residual : Bool
  hidden_size : Nat
deriving DecidableEq

/-- Embedding of `SpectralAttention.__init__`.  Here `modes_lat`/`modes_lon` are read
from the *forward* transform (lines 170-171), so the asserts at lines 183-184 genuinely
compare the inverse transform's mode counts against the forward transform's.  Failures,
in source order: the two mode-count asserts; then, in both supported operator-type
branches, the very first statement looks up a contraction handle
(`compl_muladd2d_fwd`/`compl_mul2d_fwd` at lines 189-190,
`compl_exp_muladd2d_fwd`/`compl_exp_mul2d_fwd` at lines 211-212) and raises
`NameError`, because none of these names is imported anywhere in
`spectral_convolution.py` — so no `SpectralAttention` construction can ever complete;
an unrecognized operator type raises `ValueError` at line 233. -/
def SpectralAttention.init (fT iT : TransformSpec) (_cin _cout : Nat) (op : String)
    (_hsf : Nat) (_bias : Bool) (_sl : Nat) : Except String SpectralAttentionState :=
  if iT.lmax ≠ fT.lmax then Except.error ("AssertionError: inverse lmax vs modes_lat")
  else if iT.mmax ≠ fT.mmax then Except.error ("AssertionError: inverse mmax vs modes_lon")
  else if op = "diagonal" then
    Except.error ("NameError: name compl_muladd2d_fwd is not defined")
  else if op = "l-dependant" then
    Except.error ("NameError: name compl_exp_muladd2d_fwd is not defined")
  else Except.error ("ValueError: Unknown operator type")

/-- Sample transform: `lmax=4, mmax=4, nlat=8, nlon=16`, equiangular grid, not
distributed. -/
def tEx : TransformSpec := ⟨4, 4, 8, 16, some ("equiangular"), none⟩

/-- Sample forward transform with a latitudinal mode count differing from `tEx`. -/
def fMis : TransformSpec := ⟨5, 4, 8, 16, some ("equiangular"), none⟩

/-- C9: For every supported operator type, constructing the Mode-Mixing Operator with
`in_channels` or `out_channels` not divisible by `num_groups` fails at construction
time, before any forward pass (the divisibility asserts are the first statements of
`SpectralConv.__init__`). -/
theorem spectralconv_group_divisibility (fT iT : TransformSpec) (cin cout g : Nat)
    (op : String) (sep bias : Bool)
    (_hop : op = "diagonal" ∨ op = "dhconv")
    (hdiv : cin % g ≠ 0 ∨ cout % g ≠ 0) :
    isErr (SpectralConv.init fT iT cin cout g op sep bias) = true := by
  unfold SpectralConv.init
  by_cases hg : g = 0
  · rw [if_pos hg]; rfl
  · rw [if_neg hg]
    by_cases h1 : cin % g ≠ 0
    · rw [if_pos h1]; rfl
    · rw [if_neg h1]
      have h2 : cout % g ≠ 0 := by tauto
      rw [if_pos h2]; rfl

/-- Witness for C9 at a concrete input: `in_channels = 3` is not divisible by
`num_groups = 2`, and construction fails. -/
theorem spectralconv_group_divisibility_witness :
    (("dhconv" = "diagonal" ∨ "dhconv" = "dhconv") ∧ (3 % 2 ≠ 0 ∨ 8 % 2 ≠ 0))
    ∧ isErr (SpectralConv.init tEx tEx 3 8 2 ("dhconv") false false) = true :=
  ⟨⟨Or.inr rfl, Or.inl (by decide)⟩,
   spectralconv_group_divisibility tEx tEx 3 8 2 ("dhconv") false false
     (Or.inr rfl) (Or.inl (by decide))⟩

/-- Counterexample to C3 as stated: the mode counts of the forward transform (`lmax=5`)
and the inverse transform (`lmax=4`) mismatch, yet `SpectralConv` construction
succeeds — the asserts at lines 65-66 compare `inverse_transform.lmax`/`mmax` against
`modes_lat`/`modes_lon`, which were themselves read from the inverse transform at lines
54-55, so they can never fail. -/
theorem spectralconv_mode_mismatch_counterexample :
    fMis.lmax ≠ tEx.lmax
    ∧ isErr (SpectralConv.init fMis tEx 4 4 1 ("dhconv") false false) = false :=
  ⟨by decide, rfl⟩

/-- C3 (amended): constructing the Spectral Attention Operator fails at construction
time, before any forward pass, whenever the mode counts `(lmax, mmax)` of the forward
transform and the inverse transform mismatch; the Mode-Mixing Operator (`SpectralConv`)
performs no such cross-check (its asserts compare the inverse transform with itself)
and does not fail on such a mismatch. -/
theorem spectralattention_mode_mismatch (fT iT : TransformSpec) (cin cout : Nat)
    (op : String) (hsf : Nat) (bias : Bool) (sl : Nat)
    (h : fT.lmax ≠ iT.lmax ∨ fT.mmax ≠ iT.mmax) :
    isErr (SpectralAttention.init fT iT cin cout op hsf bias sl) = true := by
  unfold SpectralAttention.init
  rcases h with h | h
  · rw [if_pos (Ne.symm h)]; rfl
  · by_cases h1 : iT.lmax ≠ fT.lmax
    · rw [if_pos h1]; rfl
    · rw [if_neg h1, if_pos (Ne.symm h)]; rfl

/-- Witness for the amended C3 at a concrete input: forward `lmax=5` against inverse
`lmax=4` makes `SpectralAttention` construction fail. -/
theorem spectralattention_mode_mismatch_witness :
    (fMis.lmax ≠ tEx.lmax ∨ fMis.mmax ≠ tEx.mmax)
    ∧ isErr (SpectralAttention.init fMis tEx 4 4 ("diagonal") 2 false 1) = true :=
  ⟨Or.inl (by decide),
   spectralattention_mode_mismatch fMis tEx 4 4 ("diagonal") 2 false 1 (Or.inl (by decide))⟩

/-- Scale vector entry at index `l` of the length-`modes_lat_local` vector built in
`SpectralConv.__init__` (lines 92-95, shared by both supported operator types): the
base factor `sqrt(gain / (in_channels // num_groups))` at every index, with the entry
at index 0 additionally multiplied by `sqrt(2)`.  Which weight axis an entry multiplies
depends on the operator type, through the broadcast in
`init = scale * torch.randn(*weight_shape)`: the scale aligns with the weight's
trailing axis, which is the latitudinal mode axis for `"dhconv"` but the longitudinal
mode axis for `"diagonal"`. -/
noncomputable def SpectralConv.scaleInit (gain : ℝ) (cin g : Nat) (l : Nat) : ℝ :=
  if l = 0 then Real.sqrt (gain / ((cin / g : Nat) : ℝ)) * Real.sqrt 2
  else Real.sqrt (gain / ((cin / g : Nat) : ℝ))

/-- Index into the length-`L` scale vector that torch broadcasting selects at position
`j` of the product's trailing axis (a length-1 scale vector repeats along it). -/
def broadcastIdx (L j : Nat) : Nat :=
  if L = 1 then 0 else j

/-- Variance of the initialized weight entry at latitudinal index `latIdx` and
longitudinal index `lonIdx`, for a scale vector of length `L = modes_lat_local`: the
squared selected scale entry times the unit variance of the standard complex Gaussian
drawn by `randn`.  For `"dhconv"` the weight's trailing axis is the latitudinal mode
axis, so the scale entry is selected by `latIdx`; for `"diagonal"` the weight's
trailing axes are `[modes_lat_local, modes_lon_local]` and the scale aligns with the
trailing *longitudinal* axis, so the scale entry is selected by `lonIdx`. -/
noncomputable def SpectralConv.entryVariance (gain : ℝ) (cin g : Nat) (op : String)
    (L latIdx lonIdx : Nat) : ℝ :=
  if op = "dhconv" then (SpectralConv.scaleInit gain cin g (broadcastIdx L latIdx)) ^ 2
  else (SpectralConv.scaleInit gain cin g (broadcastIdx L lonIdx)) ^ 2

theorem scaleInit_zero_sq (gain : ℝ) (cin g l : Nat) (hl : l ≠ 0) :
    (SpectralConv.scaleInit gain cin g 0) ^ 2
      = 2 * (SpectralConv.scaleInit gain cin g l) ^ 2 := by
  unfold SpectralConv.scaleInit
  rw [if_pos rfl, if_neg hl, mul_pow, Real.sq_sqrt (by norm_num : (0:ℝ) ≤ 2)]
  ring

/-- Counterexample to C4 as stated: for the supported operator type `"diagonal"` with
`gain = 1`, `in_channels = num_groups = 1` and a scale of length
`modes_lat_local = 2` (so `modes_lon_local = 2` for a valid broadcast), the
zeroth-latitudinal-mode entry at `(lat, lon) = (0, 1)` does *not* have twice the
variance of the other-latitudinal-mode entry at `(1, 1)`: the scale broadcasts along
the trailing longitudinal axis, so both entries carry the base variance 1. -/
theorem spectralconv_mode0_variance_counterexample :
    ¬ (SpectralConv.entryVariance 1 1 1 ("diagonal") 2 0 1
        = 2 * SpectralConv.entryVariance 1 1 1 ("diagonal") 2 1 1) := by
  have hval : ∀ i : Nat, SpectralConv.entryVariance 1 1 1 ("diagonal") 2 i 1 = 1 := by
    intro i
    unfold SpectralConv.entryVariance broadcastIdx SpectralConv.scaleInit
    rw [if_neg (by decide : ¬ ("diagonal" : String) = "dhconv"),
      if_neg (by decide : ¬ (2 : Nat) = 1), if_neg (by decide : ¬ (1 : Nat) = 0)]
    norm_num [Real.sqrt_one]
  rw [hval 0, hval 1]
  norm_num

/-- C4 (amended): the `sqrt 2` factor on the zeroth scale entry gives exactly twice the
initialization variance at the zeroth *latitudinal* mode for operator type `"dhconv"`,
whose weight trailing axis is the latitudinal mode axis; for operator type
`"diagonal"` the scale vector broadcasts along the weight's trailing *longitudinal*
axis, so there the entry variance is independent of the latitudinal index, and the
factor-2 enhancement attaches to the zeroth longitudinal index instead.  (`L ≠ 1` rules
out the degenerate one-entry scale, for which no distinct other index exists.) -/
theorem spectralconv_mode0_variance_by_axis (gain : ℝ) (cin g L l i0 i1 j j0 j1 : Nat)
    (hL : L ≠ 1) (hl : l ≠ 0) (hj : j ≠ 0) :
    SpectralConv.entryVariance gain cin g ("dhconv") L 0 j0
        = 2 * SpectralConv.entryVariance gain cin g ("dhconv") L l j1
    ∧ SpectralConv.entryVariance gain cin g ("diagonal") L i0 j
        = SpectralConv.entryVariance gain cin g ("diagonal") L i1 j
    ∧ SpectralConv.entryVariance gain cin g ("diagonal") L i0 0
        = 2 * SpectralConv.entryVariance gain cin g ("diagonal") L i0 j := by
  have hd : ∀ (li lo : Nat), SpectralConv.entryVariance gain cin g ("dhconv") L li lo
      = (SpectralConv.scaleInit gain cin g (broadcastIdx L li)) ^ 2 := by
    intro li lo
    unfold SpectralConv.entryVariance
    rw [if_pos rfl]
  have hdg : ∀ (li lo : Nat), SpectralConv.entryVariance gain cin g ("diagonal") L li lo
      = (SpectralConv.scaleInit gain cin g (broadcastIdx L lo)) ^ 2 := by
    intro li lo
    unfold SpectralConv.entryVariance
    rw [if_neg (by decide : ¬ ("diagonal" : String) = "dhconv")]
  have hb0 : broadcastIdx L 0 = 0 := by
    unfold broadcastIdx
    split <;> rfl
  have hbx : ∀ (jj : Nat), broadcastIdx L jj = jj := by
    intro jj
    unfold broadcastIdx
    rw [if_neg hL]
  refine ⟨?_, ?_, ?_⟩
  · rw [hd 0 j0, hd l j1, hb0, hbx l]
    exact scaleInit_zero_sq gain cin g l hl
  · rw [hdg i0 j, hdg i1 j]
  · rw [hdg i0 0, hdg i0 j, hb0, hbx j]
    exact scaleInit_zero_sq gain cin g j hj

/-- Witness for the amended C4 at concrete inputs: `gain = 1`, `in_channels = 4`,
`num_groups = 1`, scale length `L = 3`, comparing latitudinal indices 0 vs 1 for
`"dhconv"` and entries `(0,1)`, `(2,1)`, `(0,0)` for `"diagonal"`. -/
theorem spectralconv_mode0_variance_by_axis_witness :
    SpectralConv.entryVariance 1 4 1 ("dhconv") 3 0 0
        = 2 * SpectralConv.entryVariance 1 4 1 ("dhconv") 3 1 2
    ∧ SpectralConv.entryVariance 1 4 1 ("diagonal") 3 0 1
        = SpectralConv.entryVariance 1 4 1 ("diagonal") 3 2 1
    ∧ SpectralConv.entryVariance 1 4 1 ("diagonal") 3 0 0
        = 2 * SpectralConv.entryVariance 1 4 1 ("diagonal") 3 0 1 :=
  spectralconv_mode0_variance_by_axis 1 4 1 3 1 0 2 1 0 2
    (by decide) (by decide) (by decide)

/-- A tensor entering an operator forward pass: abstract value plus the numeric
precision tag (`x.dtype`) that must be restored at operator exit. -/
structure Tens (V : Type) where
  val : V
  dtype : String

/-- Embedding of `SpectralConv.forward`.  The transforms, the
reshape-contract-reshape pipeline (`self._contract` from the external contractions
module) and the dtype casts are abstract functions; `.contiguous()` preserves values.
Returns the pair `(output, residual)`. -/
def SpectralConv.forwardRun {V : Type} (m : SpectralConvState)
    (fwdT invT contract : V → V) (castTo : String → V → V) (addBias : V → V)
    (x : Tens V) : Tens V × Tens V :=
  let dtype := x.dtype
  let x1 := castTo ("float32") x.val
  let xs := fwdT x1
  let residual := if m.scale_residual then (⟨castTo dtype (invT xs), dtype⟩ : Tens V) else x
  let xc := contract xs
  let xo := invT xc
  let xb := if m.has_bias then addBias xo else xo
  (⟨castTo dtype xb, dtype⟩, residual)

set_option maxHeartbeats 1000000 in
theorem conv_init_ok_scale_residual {fT iT : TransformSpec} {cin cout g : Nat}
    {op : String} {sep bias : Bool} {m : SpectralConvState}
    (h : SpectralConv.init fT iT cin cout g op sep bias = Except.ok m) :
    m.scale_residual = SpectralConv.scaleResidualFlag fT iT := by
  unfold SpectralConv.init at h
  repeat' split at h
  all_goals simp at h
  all_goals subst h
  all_goals rfl

theorem conv_scaleResidualFlag_false_iff (fT iT : TransformSpec) (gf : String)
    (hg : fT.grid = some gf) :
    SpectralConv.scaleResidualFlag fT iT = false
      ↔ (fT.nlat = iT.nlat ∧ fT.nlon = iT.nlon ∧ fT.grid = iT.grid) := by
  simp [SpectralConv.scaleResidualFlag, hg, and_assoc]

/-- Residual rule of `SpectralConv.forward`: for every input `x`, the residual equals
the raw input `x` unmodified when the forward and inverse transforms have identical
`nlat`, `nlon`, and grid identifier; when they differ in any of these, the residual
equals the inverse transform applied to the unmixed spectral tensor (the low-pass
reconstruction at output resolution), cast back to the input's dtype.  The forward
transform is assumed to carry a grid identifier (`fT.grid = some gf`), as the
Transform Provider contract specifies.  (Supporting theorem for the Mode-Mixing half
of the residual claim; the Spectral Attention half is unreachable code, since its
constructor always raises `NameError` — see the constructor embedding above.) -/
theorem spectralconv_forward_residual_rule {V : Type} (fT iT : TransformSpec)
    (cin cout g : Nat) (op : String) (sep bias : Bool) (m : SpectralConvState)
    (hconv : SpectralConv.init fT iT cin cout g op sep bias = Except.ok m)
    (gf : String) (hg : fT.grid = some gf)
    (fwdT invT contract : V → V) (castTo : String → V → V) (addBias : V → V)
    (x : Tens V) :
    ((fT.nlat = iT.nlat ∧ fT.nlon = iT.nlon ∧ fT.grid = iT.grid) →
        (SpectralConv.forwardRun m fwdT invT contract castTo addBias x).2 = x)
    ∧ (¬(fT.nlat = iT.nlat ∧ fT.nlon = iT.nlon ∧ fT.grid = iT.grid) →
        (SpectralConv.forwardRun m fwdT invT contract castTo addBias x).2
          = ⟨castTo x.dtype (invT (fwdT (castTo ("float32") x.val))), x.dtype⟩) := by
  have hm := conv_init_ok_scale_residual hconv
  have hcr : (SpectralConv.forwardRun m fwdT invT contract castTo addBias x).2
      = if m.scale_residual then
          (⟨castTo x.dtype (invT (fwdT (castTo ("float32") x.val))), x.dtype⟩ : Tens V)
        else x := rfl
  constructor
  · intro hsame
    have h1 : SpectralConv.scaleResidualFlag fT iT = false :=
      (conv_scaleResidualFlag_false_iff fT iT gf hg).mpr hsame
    rw [hcr, hm, h1]
    rfl
  · intro hdiff
    have h1 : SpectralConv.scaleResidualFlag fT iT = true := by
      rcases Bool.eq_false_or_eq_true (SpectralConv.scaleResidualFlag fT iT) with ht | hf
      · exact ht
      · exact absurd ((conv_scaleResidualFlag_false_iff fT iT gf hg).mp hf) hdiff
    rw [hcr, hm, h1]
    rfl

/-- Witness for the `SpectralConv` residual rule at concrete inputs: with identical
forward and inverse transforms (`tEx`), a successfully constructed module, and concrete
abstract operations over `V = Nat`, the residual of the forward pass is the raw
input. -/
theorem spectralconv_forward_residual_rule_witness :
    (SpectralConv.forwardRun
        ⟨4, 4, 1, 4, 4, 4, 4, 8, 16, false, "dhconv", false, [1, 4, 4, 4], false⟩
        Nat.succ (fun v => 2 * v) id (fun _ v => v) id (⟨5, "bfloat16"⟩ : Tens Nat)).2
      = (⟨5, "bfloat16"⟩ : Tens Nat) :=
  (spectralconv_forward_residual_rule tEx tEx 4 4 1 ("dhconv") false false
      ⟨4, 4, 1, 4, 4, 4, 4, 8, 16, false, "dhconv", false, [1, 4, 4, 4], false⟩
      rfl ("equiangular") rfl Nat.succ (fun v => 2 * v) id (fun _ v => v) id
      ⟨5, "bfloat16"⟩).1 ⟨rfl, rfl, rfl⟩

/-- C5: The claim's residual rule covers the Spectral Attention Operator's forward
pass, but that forward pass is unreachable in this code: the constructor's supported
operator-type branches begin by looking up contraction handles that are never imported
in `spectral_convolution.py`, so every construction attempt raises `NameError` before
any weight is allocated.  This theorem evaluates the constructor at the failing input
(matched transforms, `operator_type="diagonal"`, `in_channels=out_channels=4`,
`hidden_size_factor=2`, `bias=False`, `spectral_layers=1`).  The Mode-Mixing half of
the claim does hold, as a separate supporting theorem shows. -/
theorem spectralattention_nameerror :
    SpectralAttention.init tEx tEx 4 4 ("diagonal") 2 false 1
      = Except.error ("NameError: name compl_muladd2d_fwd is not defined") := rfl

/-- Sample inverse transform whose (local) longitudinal mode count is 1 while the
latitudinal mode count is 3. -/
def tLon1 : TransformSpec := ⟨3, 1, 4, 8, some ("equiangular"), none⟩

/-- Counterexample to C10 as stated: with `operator_type = "diagonal"`,
`modes_lat_local = 3 ≠ modes_lon_local = 1` and `modes_lat_local ≠ 1`, yet the
constructor succeeds, because a trailing dimension of size 1 is broadcast-compatible
with the length-3 scale vector. -/
theorem spectralconv_diagonal_lon1_counterexample :
    tLon1.modesLatLocal ≠ tLon1.modesLonLocal ∧ tLon1.modesLatLocal ≠ 1
    ∧ isErr (SpectralConv.init tLon1 tLon1 4 4 1 ("diagonal") false false) = false :=
  ⟨by decide, by decide, rfl⟩

/-- C10 (amended): constructing the Mode-Mixing Operator with
`operator_type = "diagonal"` raises a shape/broadcast error before any forward pass for
every configuration (passing the earlier channel checks, with a nonzero local
latitudinal mode count) in which `modes_lat_local ≠ modes_lon_local`,
`modes_lat_local ≠ 1`, and additionally `modes_lon_local ≠ 1` — a trailing dimension of
size 1 is itself broadcastable, so the claim's original condition is too weak. -/
theorem spectralconv_diagonal_broadcast_error (fT iT : TransformSpec) (cin cout g : Nat)
    (sep bias : Bool)
    (hg : g ≠ 0) (h1 : cin % g = 0) (h2 : cout % g = 0) (h3 : cin / g ≠ 0)
    (hne : iT.modesLatLocal ≠ iT.modesLonLocal)
    (hlat1 : iT.modesLatLocal ≠ 1)
    (hlat0 : iT.modesLatLocal ≠ 0)
    (hlon1 : iT.modesLonLocal ≠ 1) :
    isErr (SpectralConv.init fT iT cin cout g ("diagonal") sep bias) = true := by
  have hbc : ¬ (broadcastOk iT.modesLatLocal iT.modesLonLocal = true) := by
    simp [broadcastOk, hne, hlat1, hlon1]
  unfold SpectralConv.init
  rw [if_neg hg, if_neg (not_not_intro h1), if_neg (not_not_intro h2),
    if_neg (fun hc => hc rfl), if_neg (fun hc => hc rfl), if_pos rfl,
    if_neg h3, if_neg hlat0, if_neg hbc]
  rfl

/-- Sample inverse transform with `modes_lat_local = 3`, `modes_lon_local = 2`. -/
def tJag : TransformSpec := ⟨3, 2, 4, 8, some ("equiangular"), none⟩

/-- Witness for the amended C10 at a concrete input. -/
theorem spectralconv_diagonal_broadcast_error_witness :
    ((1 : Nat) ≠ 0 ∧ 4 % 1 = 0 ∧ 4 / 1 ≠ 0 ∧ tJag.modesLatLocal ≠ tJag.modesLonLocal
      ∧ tJag.modesLatLocal ≠ 1 ∧ tJag.modesLatLocal ≠ 0 ∧ tJag.modesLonLocal ≠ 1)
    ∧ isErr (SpectralConv.init tJag tJag 4 4 1 ("diagonal") false false) = true :=
  ⟨⟨by decide, by decide, by decide, by decide, by decide, by decide, by decide⟩,
   spectralconv_diagonal_broadcast_error tJag tJag 4 4 1 false false (by decide)
     (by decide) (by decide) (by decide) (by decide) (by decide) (by decide) (by decide)⟩

/-- One entry of the `plot_list` configured on the `VisualizationWrapper`: field name,
extraction functor reference, divergent-colormap flag. -/
structure PlotItem where
  name : String
  functor : String
  diverging : Bool
deriving DecidableEq

/-- Embedding of `VisualizationWrapper.add(tag, prediction, target)`: one job is
submitted per configured plot item, carrying the token `(tag, field_name)` that
`visualize_field` returns unchanged with the rendered image.  The prediction/target
arrays only determine the image payload, which is abstract here. -/
def VisualizationWrapper.add (plot_list : List PlotItem)
    (requests : List (String × String)) (tag : String) : List (String × String) :=
  requests ++ plot_list.map (fun item => (tag, item.name))

/-- The jobs enqueued by a sequence of `add` calls with the given tags, starting from
an empty request queue (the state after `__init__` or `reset`). -/
def VisualizationWrapper.jobsOf (plot_list : List PlotItem) (tags : List String) :
    List (String × String) :=
  tags.foldl (fun reqs tag => VisualizationWrapper.add plot_list reqs tag) []

/-- The dictionary key built in `finalize` for a completed job token `(tag, field_name)`:
the string `field_name + "_" + tag`. -/
def entryKey (token : String × String) : String :=
  token.2 ++ "_" ++ token.1

/-- Python-dict insertion semantics for `results[key] = image`: if the key is present,
its value is overwritten in place; otherwise the pair is appended (dicts preserve
insertion order). -/
def dinsert {β : Type} (acc : List (String × β)) (p : String × β) : List (String × β) :=
  if acc.any (fun q => q.1 == p.1) then
    acc.map (fun q => if q.1 == p.1 then (q.1, p.2) else q)
  else acc ++ [p]

/-- The `results` dict built by iterating `cf.as_completed(self.requests)` in completion
order. -/
def dictOf {β : Type} (l : List (String × β)) : List (String × β) :=
  l.foldl dinsert []

instance decKeyLE {β : Type} : DecidableRel (fun p q : String × β => p.1 ≤ q.1) :=
  fun p q => inferInstanceAs (Decidable (p.1 ≤ q.1))

instance totalKeyLE {β : Type} : IsTotal (String × β) (fun p q => p.1 ≤ q.1) :=
  ⟨fun a b => le_total a.1 b.1⟩

instance transKeyLE {β : Type} : IsTrans (String × β) (fun p q => p.1 ≤ q.1) :=
  ⟨fun _ _ _ h1 h2 => le_trans h1 h2⟩

/-- Embedding of `VisualizationWrapper.finalize()`: collect the `(token, image)` results
in completion order into a dict keyed by `field_name + "_" + tag`, then build the output
sequence from `sorted(results.items())` — a stable sort ascending by key, modelled by
insertion sort. -/
def VisualizationWrapper.finalize {β : Type}
    (completed : List ((String × String) × β)) : List (String × β) :=
  List.insertionSort (fun p q : String × β => p.1 ≤ q.1)
    (dictOf (completed.map (fun r => (entryKey r.1, r.2))))

theorem foldl_dinsert_nodup {β : Type} :
    ∀ (l acc : List (String × β)), ((acc ++ l).map Prod.fst).Nodup →
      l.foldl dinsert acc = acc ++ l := by
  intro l
  induction l with
  | nil => intro acc _; simp
  | cons p l ih =>
      intro acc h
      have hnot : p.1 ∉ acc.map Prod.fst := by
        intro hmem
        rw [List.map_append] at h
        rcases List.nodup_append.mp h with ⟨_, _, hdisj⟩
        exact hdisj hmem (by simp)
      have hany : acc.any (fun q => q.1 == p.1) = false := by
        rw [List.any_eq_false]
        intro q hq hbeq
        exact hnot (List.mem_map.mpr ⟨q, hq, (beq_iff_eq.mp hbeq).symm ▸ rfl⟩)
      have hins : dinsert acc p = acc ++ [p] := by
        unfold dinsert
        rw [hany]
        rfl
      have hre : (acc ++ p :: l) = (acc ++ [p]) ++ l := by simp
      calc (p :: l).foldl dinsert acc
      _ = l.foldl dinsert (dinsert acc p) := rfl
      _ = l.foldl dinsert (acc ++ [p]) := by rw [hins]
      _ = (acc ++ [p]) ++ l := ih (acc ++ [p]) (by rw [← hre]; exact h)
      _ = acc ++ p :: l := by simp

theorem dictOf_nodup {β : Type} (l : List (String × β))
    (h : (l.map Prod.fst).Nodup) : dictOf l = l := by
  have := foldl_dinsert_nodup l [] (by simpa using h)
  simpa [dictOf] using this

theorem insertionSort_eq_of_perm_nodup_keys {β : Type}
    (l1 l2 : List (String × β)) (hperm : l1.Perm l2)
    (hnd : (l1.map Prod.fst).Nodup) :
    List.insertionSort (fun p q : String × β => p.1 ≤ q.1) l1
      = List.insertionSort (fun p q : String × β => p.1 ≤ q.1) l2 := by
  have hp1 := List.perm_insertionSort (fun p q : String × β => p.1 ≤ q.1) l1
  have hp2 := List.perm_insertionSort (fun p q : String × β => p.1 ≤ q.1) l2
  have hs1 := List.sorted_insertionSort (fun p q : String × β => p.1 ≤ q.1) l1
  have hs2 := List.sorted_insertionSort (fun p q : String × β => p.1 ≤ q.1) l2
  have hnd2 : (l2.map Prod.fst).Nodup := ((hperm.map Prod.fst).nodup_iff).mp hnd
  have hstrict : ∀ (l : List (String × β)),
      (l.map Prod.fst).Nodup →
      List.Sorted (fun p q : String × β => p.1 ≤ q.1) (List.insertionSort (fun p q : String × β => p.1 ≤ q.1) l) →
      List.Sorted (fun p q : String × β => p.1 < q.1) (List.insertionSort (fun p q : String × β => p.1 ≤ q.1) l) := by
    intro l hl hsorted
    have hlnd : ((List.insertionSort (fun p q : String × β => p.1 ≤ q.1) l).map Prod.fst).Nodup :=
      (((List.perm_insertionSort (fun p q : String × β => p.1 ≤ q.1) l).map Prod.fst).nodup_iff).mpr hl
    have hpw : List.Pairwise (fun p q : String × β => p.1 ≠ q.1)
        (List.insertionSort (fun p q : String × β => p.1 ≤ q.1) l) :=
      List.pairwise_map.mp hlnd
    exact (hsorted.and hpw).imp (fun hab => lt_of_le_of_ne hab.1 hab.2)
  haveI : IsAntisymm (String × β) (fun p q : String × β => p.1 < q.1) :=
    ⟨fun _ _ h1 h2 => absurd h2 (lt_asymm h1)⟩
  exact List.eq_of_perm_of_sorted (hp1.trans (hperm.trans hp2.symm))
    (hstrict l1 hnd hs1) (hstrict l2 hnd2 hs2)

/-- C8 (amended): For every sequence of `add` calls enqueuing `k` jobs in total whose
composite string keys `field_name + "_" + tag` are pairwise distinct, calling
`finalize()` yields a result sequence of exactly `k` entries keyed by that composite
string key, sorted ascending by it, and equal to a canonical sequence determined by the
submitted jobs alone — hence identical for any two runs that differ only in the
completion order of the worker-pool jobs.  (Without the distinctness proviso the dict
built in `finalize` collapses duplicate keys, so fewer than `k` entries can result; and
the dict key is the concatenated string, not the pair `(field_name, tag)`.) -/
theorem visualization_finalize_deterministic {β : Type}
    (jobs completed : List ((String × String) × β))
    (hperm : completed.Perm jobs)
    (hnd : (jobs.map (fun r => entryKey r.1)).Nodup) :
    VisualizationWrapper.finalize completed
        = List.insertionSort (fun p q : String × β => p.1 ≤ q.1)
            (jobs.map (fun r => (entryKey r.1, r.2)))
    ∧ (VisualizationWrapper.finalize completed).length = jobs.length
    ∧ List.Sorted (fun p q : String × β => p.1 ≤ q.1)
        (VisualizationWrapper.finalize completed) := by
  have hkeys : ∀ (l : List ((String × String) × β)),
      (l.map (fun r => (entryKey r.1, r.2))).map Prod.fst = l.map (fun r => entryKey r.1) := by
    intro l
    rw [List.map_map]
    rfl
  have hndj : ((jobs.map (fun r => (entryKey r.1, r.2))).map Prod.fst).Nodup := by
    rw [hkeys]; exact hnd
  have hpm : (completed.map (fun r => (entryKey r.1, r.2))).Perm
      (jobs.map (fun r => (entryKey r.1, r.2))) := hperm.map _
  have hndc : ((completed.map (fun r => (entryKey r.1, r.2))).map Prod.fst).Nodup :=
    ((hpm.map Prod.fst).nodup_iff).mpr hndj
  have hfin : VisualizationWrapper.finalize completed
      = List.insertionSort (fun p q : String × β => p.1 ≤ q.1)
          (completed.map (fun r => (entryKey r.1, r.2))) := by
    unfold VisualizationWrapper.finalize
    rw [dictOf_nodup _ hndc]
  refine ⟨?_, ?_, ?_⟩
  · rw [hfin]
    exact insertionSort_eq_of_perm_nodup_keys _ _ hpm hndc
  · rw [hfin, List.length_insertionSort, List.length_map, hperm.length_eq]
  · rw [hfin]
    exact List.sorted_insertionSort _ _

/-- Sample plot list with a single configured field. -/
def plEx : List PlotItem := [⟨"u10m", "lambda x: x[0, 0]", false⟩]

/-- Counterexample to C8 as stated: two `add` calls with the same tag enqueue `k = 2`
jobs, but `finalize` keys its dict by the string `field_name + "_" + tag`, so both jobs
collapse onto the key `"u10m_t0"` and the result has 1 entry, not 2. -/
theorem visualization_duplicate_tag_counterexample :
    (VisualizationWrapper.jobsOf plEx [("t0"), ("t0")]).length = 2
    ∧ (VisualizationWrapper.finalize
        ((VisualizationWrapper.jobsOf plEx [("t0"), ("t0")]).map (fun t => (t, (0 : Nat))))).length
      = 1 :=
  ⟨rfl, rfl⟩

/-- Sample submitted jobs (with abstract images modelled as numbers). -/
def jobsEx : List ((String × String) × Nat) := [(("t0", "u10m"), 0), (("t1", "u10m"), 1)]

/-- The same jobs completing in the opposite order. -/
def completedEx : List ((String × String) × Nat) := [(("t1", "u10m"), 1), (("t0", "u10m"), 0)]

/-- Witness for the amended C8 at a concrete input: two jobs with distinct composite
keys, completing out of submission order. -/
theorem visualization_finalize_deterministic_witness :
    VisualizationWrapper.finalize completedEx
        = List.insertionSort (fun p q : String × Nat => p.1 ≤ q.1)
            (jobsEx.map (fun r => (entryKey r.1, r.2)))
    ∧ (VisualizationWrapper.finalize completedEx).length = jobsEx.length
    ∧ List.Sorted (fun p q : String × Nat => p.1 ≤ q.1)
        (VisualizationWrapper.finalize completedEx) :=
  visualization_finalize_deterministic jobsEx completedEx
    (List.Perm.swap (("t0", "u10m"), 0) (("t1", "u10m"), 1) [])
    (by decide)
